import Mathlib

/-!
Shallow embedding of the Solana address-analysis route (the cache-enabled
variant of `src/app/api/tools/solana-address-analysis/route.ts`).

Machine numbers are modelled by `ℤ` (lamports, timestamps in milliseconds)
and `ℚ` (SOL-denominated floats); JavaScript `Map` objects are modelled by
insertion-ordered association lists with `Map.set` updating in place.
-/

namespace SolanaBubbles

/-- Zero padding for the fractional digits of `toFixed`. The JS rendering: the JS `Number.prototype.toFixed`,
rounding to the nearest multiple of `10 ^ (-d)`. -/
def padZeros (d : ℕ) (m : ℕ) : String :=
  let s := toString m
  String.mk (List.replicate (d - s.length) '0') ++ s

def toFixed (v : ℚ) (d : ℕ) : String :=
  let sign := if v < 0 then "-" else ""
  let n : ℕ := (round (|v| * 10 ^ d)).toNat
  if d = 0 then sign ++ toString n
  else sign ++ toString (n / 10 ^ d) ++ "." ++ padZeros d (n % 10 ^ d)

/-- Source `formatSolAmount` (route.ts, cache variant): graduated-precision rendering
of an accumulated SOL value. -/
def formatSolAmount (solValue : ℚ) : String :=
  if solValue = 0 then "0 SOL"
  else if solValue < 1 / 1000 then toFixed solValue 6 ++ " SOL"
  else if solValue < 1 then toFixed solValue 3 ++ " SOL"
  else if solValue < 1000 then toFixed solValue 2 ++ " SOL"
  else toFixed solValue 0 ++ " SOL"

/-- Source `TOKEN_TO_SOL_RATES`: static table of mint address → approximate SOL rate. -/
def TOKEN_TO_SOL_RATES : List (String × ℚ) :=
  [("EPjFWdd5AufqSSqeM2qN1xzybapC8G4wEGGkZwyTDt1v", 4 / 1000),
   ("Es9vMFrzaCERmJfrF4H2FYD4KCoNkY11McCe8BenwNYB", 4 / 1000),
   ("So11111111111111111111111111111111111111112", 1),
   ("mSoLzYCxHdYgdzU16g5QSh3i5K3z3KZK7ytfqcJm7So", 1),
   ("bSo13r4TkiE4KumL71LsHTPpL2euBYLFx6h9HP3piy1", 1),
   ("JUP4Fb2cqiRUcaTHdrPC8h2gNsA2ETXiPDD33WcGuJB", 35 / 10000),
   ("7vfCXTUXx5WJV5JADk17DUJ4ksgau7utNKj4b963voxs", 15 / 100),
   ("DezXAZ8z7PnrnRJjz3wXBoRgixCa6xjnB7YaB1pPB263", 6 / 100000000),
   ("WENWENvqqNya429ubCdR81ZmD69brwQaaBYY6p3LCpk", 1 / 1000000),
   ("hntyVP6YFm1Hg25TN9WGLqM12b8TQmcknKrdu1oxWux", 3 / 1000000),
   ("MEW1gQWJ3nEXg2qgERiKu7FAFj79PHvQVREQUzScPP5", 1 / 10000),
   ("MangoCzJ36AjZyKwVj3VnYU4GTonjfVEnJmvvWaxLac", 1 / 10000),
   ("SHDWyBxihqiCj6YekG2GUr7wqKLeLAMK1gHZck9pL6y", 2 / 1000000),
   ("A9mUU4qviSctJVPJdBJWkb28deg915LYJKrzQ19ji3FM", 1 / 1000000)]

/-- Source `getTokenValueInSol` (route.ts): `tokenAmount / 10^decimals * rate`, with the
rate defaulting to `0` for a mint absent from `TOKEN_TO_SOL_RATES`. -/
def getTokenValueInSol (mint : String) (tokenAmount : ℚ) (decimals : ℕ) : ℚ :=
  let actualAmount := tokenAmount / 10 ^ decimals
  let solRate := (TOKEN_TO_SOL_RATES.lookup mint).getD 0
  actualAmount * solRate

/-! ### Result cache -/

structure RelatedAccount where
  address : String
  totalSolVolume : String
deriving DecidableEq, Repr

structure SolanaAnalysisResponse where
  address : String
  isValid : Bool
  relatedAccounts : List RelatedAccount
  error : Option String
deriving DecidableEq, Repr

structure CacheEntry where
  data : SolanaAnalysisResponse
  timestamp : ℤ
  ttl : ℤ
deriving DecidableEq, Repr

/-- Source constant `CACHE_TTL = 5 * 60 * 1000` milliseconds. -/
def CACHE_TTL : ℤ := 5 * 60 * 1000

/-- Source constant `MAX_CACHE_SIZE = 1000` entries. -/
def MAX_CACHE_SIZE : ℕ := 1000

/-- The in-memory `Map<string, CacheEntry>`: an insertion-ordered association
list, with `Map.set` updating an existing key in place. -/
abbrev CacheMap := List (String × CacheEntry)

def mapGet {β : Type} : List (String × β) → String → Option β
  | [], _ => none
  | e :: t, k => if e.1 = k then some e.2 else mapGet t k

def mapContains {β : Type} : List (String × β) → String → Bool
  | [], _ => false
  | e :: t, k => decide (e.1 = k) || mapContains t k

def mapSet {β : Type} (m : List (String × β)) (k : String) (v : β) :
    List (String × β) :=
  if mapContains m k then m.map (fun e => if e.1 = k then (k, v) else e)
  else m ++ [(k, v)]

def mapDelete {β : Type} (m : List (String × β)) (k : String) :
    List (String × β) :=
  m.filter (fun e => decide (e.1 ≠ k))

def getCacheKey (address : String) : String := "analysis:" ++ address

/-- Source `getCachedAnalysis` (route.ts): lazy-expiry lookup. Returns the served
value together with the post-call store. -/
def getCachedAnalysis (now : ℤ) (address : String) (m : CacheMap) :
    Option SolanaAnalysisResponse × CacheMap :=
  let key := getCacheKey address
  match mapGet m key with
  | none => (none, m)
  | some entry =>
    if now - entry.timestamp > entry.ttl then (none, mapDelete m key)
    else (some entry.data, m)

/-- Source `cleanupCache` (route.ts): drop expired entries; if the store is then
strictly larger than `MAX_CACHE_SIZE`, drop oldest-by-timestamp entries down
to exactly `MAX_CACHE_SIZE`. -/
def cleanupCache (now : ℤ) (m : CacheMap) : CacheMap :=
  let m1 := m.filter (fun e => !(decide (now - e.2.timestamp > e.2.ttl)))
  if m1.length > MAX_CACHE_SIZE then
    let sorted := m1.mergeSort (fun a b => decide (a.2.timestamp ≤ b.2.timestamp))
    let toRemove := sorted.take (m1.length - MAX_CACHE_SIZE)
    m1.filter (fun e => !(toRemove.any (fun r => r.1 == e.1)))
  else m1

/-- Source `setCachedAnalysis` (route.ts): cleanup, then insert with the success TTL. -/
def setCachedAnalysis (now : ℤ) (address : String) (data : SolanaAnalysisResponse)
    (m : CacheMap) : CacheMap :=
  mapSet (cleanupCache now m) (getCacheKey address) ⟨data, now, CACHE_TTL⟩

/-! ### Transaction records and the aggregation pass -/

structure TokenBalance where
  owner : Option String
  mint : Option String
  /-- Field `uiTokenAmount.amount` after `parseFloat` (absent sides default to 0). -/
  amount : ℚ
  /-- Field `uiTokenAmount.decimals`. -/
  decimals : ℕ
deriving Repr

structure TxMeta where
  preBalances : Option (List ℤ)
  postBalances : Option (List ℤ)
  preTokenBalances : Option (List TokenBalance)
  postTokenBalances : Option (List TokenBalance)
deriving Repr

structure ParsedTx where
  /-- Field `tx.transaction?.message?.accountKeys`, each key already stringified. -/
  accountKeys : Option (List String)
  meta : Option TxMeta
deriving Repr

/-- Accumulators of the aggregation loop: `accountVolumes` (SOL-equivalent)
and `accountInteractions`, both JS `Map`s. -/
structure AggState where
  volumes : List (String × ℚ)
  interactions : List (String × ℕ)
deriving Repr

def mapGetD {β : Type} (m : List (String × β)) (k : String) (d : β) : β :=
  (mapGet m k).getD d

/-- The fixed exclusion list of system/protocol accounts (cache variant). -/
def EXCLUDED_ACCOUNTS : List String :=
  ["11111111111111111111111111111111",
   "TokenkegQfeZyiNwAJbNbGKPFXCWuBvf9Ss623VQ5DA",
   "ComputeBudget111111111111111111111111111111",
   "SysvarRent111111111111111111111111111111111",
   "SysvarClock111111111111111111111111111111111"]

/-- One iteration of the native-balance loop body, at participant position
`k` holding account `acct`: interactions are counted unconditionally for
every non-excluded participant; volume is accumulated only for a non-zero
balance change (in SOL, i.e. lamports / 1e9). -/
def nativeStep (address : String) (meta : TxMeta) (st : AggState) (k : ℕ)
    (acct : String) : AggState :=
  if acct = address ∨ acct ∈ EXCLUDED_ACCOUNTS then st
  else
    let ints := mapSet st.interactions acct (mapGetD st.interactions acct 0 + 1)
    match meta.preBalances, meta.postBalances with
    | some pre, some post =>
      if k < pre.length ∧ k < post.length then
        let preBalance := pre.getD k 0
        let postBalance := post.getD k 0
        let balanceChange := |postBalance - preBalance|
        if balanceChange > 0 then
          ⟨mapSet st.volumes acct
             (mapGetD st.volumes acct 0 + (balanceChange : ℚ) / 1000000000),
           ints⟩
        else ⟨st.volumes, ints⟩
      else ⟨st.volumes, ints⟩
    | _, _ => ⟨st.volumes, ints⟩

/-- The native-balance pass over all participant positions of one record. -/
def nativePass (address : String) (meta : TxMeta) (keys : List String)
    (st : AggState) : AggState :=
  keys.enum.foldl (fun s p => nativeStep address meta s p.1 p.2) st

/-- Key under JS truthiness of `balance.owner && balance.mint` (empty strings are falsy). -/
def tokenMapKey (b : TokenBalance) : Option String :=
  match b.owner, b.mint with
  | some o, some m => if o ≠ "" ∧ m ≠ "" then some (o ++ "-" ++ m) else none
  | _, _ => none

def buildTokenMap (bs : List TokenBalance) : List (String × TokenBalance) :=
  bs.foldl (fun m b =>
    match tokenMapKey b with
    | some k => mapSet m k b
    | none => m) []

/-- Behaviour of `a || b` on JS numbers: 0 is falsy. -/
def jsOrNat (a : Option ℕ) (b : ℕ) : ℕ :=
  match a with
  | some n => if n = 0 then b else n
  | none => b

/-- One iteration of the token-balance loop body for a `(owner)-(mint)` key. -/
def tokenStep (address : String) (preMap postMap : List (String × TokenBalance))
    (st : AggState) (tokenKey : String) : AggState :=
  let parts := tokenKey.splitOn "-"
  let owner := parts.getD 0 ""
  let mint := parts.getD 1 ""
  if owner = address then st
  else
    let preB := mapGet preMap tokenKey
    let postB := mapGet postMap tokenKey
    let preAmount := (preB.map (fun b => b.amount)).getD 0
    let postAmount := (postB.map (fun b => b.amount)).getD 0
    let decimals := jsOrNat (preB.map (fun b => b.decimals))
      (jsOrNat (postB.map (fun b => b.decimals)) 6)
    let tokenChange := |postAmount - preAmount|
    if tokenChange > 0 then
      let ints := mapSet st.interactions owner (mapGetD st.interactions owner 0 + 1)
      let tokenValueInSol := getTokenValueInSol mint tokenChange decimals
      if tokenValueInSol > 0 then
        ⟨mapSet st.volumes owner (mapGetD st.volumes owner 0 + tokenValueInSol),
         ints⟩
      else ⟨st.volumes, ints⟩
    else st

/-- Ordered key union of a JS `Set([...a, ...b])`. -/
def jsSetUnion (a b : List String) : List String :=
  (a ++ b).foldl (fun acc k => if k ∈ acc then acc else acc ++ [k]) []

/-- The token-balance pass of one record. -/
def tokenPass (address : String) (meta : TxMeta) (st : AggState) : AggState :=
  match meta.preTokenBalances, meta.postTokenBalances with
  | some pres, some posts =>
    let preMap := buildTokenMap pres
    let postMap := buildTokenMap posts
    let allTokenKeys := jsSetUnion (preMap.map (fun e => e.1)) (postMap.map (fun e => e.1))
    allTokenKeys.foldl (tokenStep address preMap postMap) st
  | _, _ => st

/-- Processing of a single fetched transaction (`for (const tx of transactions)`
body): skipped without meta or account keys, else native pass then token pass. -/
def processTx (address : String) (st : AggState) (tx : ParsedTx) : AggState :=
  match tx.meta with
  | none => st
  | some meta =>
    match tx.accountKeys with
    | none => st
    | some keys => tokenPass address meta (nativePass address meta keys st)

/-- The whole aggregation loop over the fetched (possibly null) transactions. -/
def aggregateAll (address : String) (txs : List (Option ParsedTx)) : AggState :=
  txs.foldl (fun st otx =>
    match otx with
    | none => st
    | some tx => processTx address st tx) ⟨[], []⟩

/-! ### Ranking -/

structure RankedAccount where
  address : String
  volumeValue : ℚ
  interactions : ℕ
deriving Repr

/-- The JS comparator `(a, b) => b.volumeValue - a.volumeValue`, falling back
to `b.interactions - a.interactions`, as a boolean "may come first" relation:
descending volume, then descending interaction count. -/
def rankLe (a b : RankedAccount) : Bool :=
  if a.volumeValue ≠ b.volumeValue then decide (b.volumeValue ≤ a.volumeValue)
  else decide (b.interactions ≤ a.interactions)

/-- The ranked (sorted, un-stripped) counterparty list. -/
def rankedAccounts (st : AggState) : List RankedAccount :=
  let allAccounts := jsSetUnion (st.interactions.map (fun e => e.1))
    (st.volumes.map (fun e => e.1))
  (allAccounts.map (fun a =>
    ⟨a, mapGetD st.volumes a 0, mapGetD st.interactions a 0⟩)).mergeSort rankLe

/-- The final `relatedAccounts` payload: ranked then stripped to
`{address, totalSolVolume}` with the accumulated volume formatted. -/
def buildRelatedAccounts (st : AggState) : List RelatedAccount :=
  (rankedAccounts st).map (fun r => ⟨r.address, formatSolAmount r.volumeValue⟩)

/-! ### Orchestrator -/

/-- Outcome of the fetch phase (the ledger provider is an external
collaborator): either the whole `try` block throws (`failure`, with the
thrown `Error`'s message when there is one), or the signature listing
succeeds with `numSignatures` entries and the batch loop fetches `txs`. -/
inductive FetchOutcome where
  | failure (msg : Option String)
  | success (numSignatures : ℕ) (txs : List (Option ParsedTx))

/-- The short TTL used when caching an error payload (1 minute). -/
def SHORT_CACHE_TTL : ℤ := 60 * 1000

/-- Source `analyzeAddress` (route.ts, cache variant), with address validation and
the network modelled as inputs. Returns the response, the post-call cache,
and whether the fetch phase was performed. -/
def analyzeAddress (validAddr : String → Bool) (fetch : FetchOutcome)
    (now : ℤ) (address : String) (cache : CacheMap) :
    SolanaAnalysisResponse × CacheMap × Bool :=
  if !(validAddr address) then
    (⟨address, false, [], some "Invalid Solana address format"⟩, cache, false)
  else
    match getCachedAnalysis now address cache with
    | (some cachedResult, cache1) => (cachedResult, cache1, false)
    | (none, cache1) =>
      match fetch with
      | .failure msg =>
        let errorResult : SolanaAnalysisResponse :=
          ⟨address, true, [],
           some ("Failed to analyze address: " ++ msg.getD "Unknown error")⟩
        (errorResult,
         mapSet cache1 (getCacheKey address) ⟨errorResult, now, SHORT_CACHE_TTL⟩,
         true)
      | .success numSignatures txs =>
        if numSignatures = 0 then (⟨address, true, [], none⟩, cache1, true)
        else
          let result : SolanaAnalysisResponse :=
            ⟨address, true, buildRelatedAccounts (aggregateAll address txs), none⟩
          (result, setCachedAnalysis now address result cache1, true)

/-! ### A sequence of distinct cache insertions (for the eviction claim) -/

/-- Pairwise-distinct addresses: `addrOf i` has length `i`. -/
def addrOf (i : ℕ) : String := String.mk (List.replicate i 'a')

def respOf (a : String) : SolanaAnalysisResponse := ⟨a, true, [], none⟩

def entryOf (i : ℕ) : String × CacheEntry :=
  (getCacheKey (addrOf i), ⟨respOf (addrOf i), (i : ℤ), CACHE_TTL⟩)

/-- Iterated insertion `putSeq n`: starting from the empty cache, `n` sequential
`setCachedAnalysis` calls for distinct addresses at strictly increasing
times `0, 1, …, n-1`. -/
def putSeq : ℕ → CacheMap
  | 0 => []
  | n + 1 => setCachedAnalysis (n : ℤ) (addrOf n) (respOf (addrOf n)) (putSeq n)

/-- The store `putSeq n` should equal: the most recent
`min n (MAX_CACHE_SIZE + 1)` insertions, in insertion order. -/
def expectedCache (n : ℕ) : CacheMap :=
  (List.range' (n - (MAX_CACHE_SIZE + 1)) (min n (MAX_CACHE_SIZE + 1))).map entryOf

/-! ## Theorems -/

theorem mapGet_mapDelete {β : Type} (m : List (String × β)) (k : String) :
    mapGet (mapDelete m k) k = none := by
  induction m with
  | nil => rfl
  | cons e t ih =>
    by_cases h : e.1 = k
    · simpa [mapDelete, h] using ih
    · simpa [mapDelete, mapGet, h] using ih

theorem mapGet_of_not_contains {β : Type} (m : List (String × β)) (k : String)
    (hc : mapContains m k = false) : mapGet m k = none := by
  induction m with
  | nil => rfl
  | cons e t ih =>
    simp only [mapContains, Bool.or_eq_false_iff, decide_eq_false_iff_not] at hc
    simp [mapGet, hc.1, ih hc.2]

theorem mapGet_append {β : Type} (m₁ m₂ : List (String × β)) (k : String) :
    mapGet (m₁ ++ m₂) k = ((mapGet m₁ k).map some).getD (mapGet m₂ k) := by
  induction m₁ with
  | nil => rfl
  | cons e t ih =>
    by_cases h : e.1 = k <;> simp [mapGet, h, ih]

theorem mapGet_mapSet {β : Type} (m : List (String × β)) (k : String) (v : β) :
    mapGet (mapSet m k v) k = some v := by
  rw [mapSet]
  by_cases hc : mapContains m k
  · rw [if_pos hc]
    induction m with
    | nil => simp [mapContains] at hc
    | cons e t ih =>
      by_cases h : e.1 = k
      · simp [mapGet, h]
      · simp only [mapContains, Bool.or_eq_true, decide_eq_true_eq, h,
          false_or] at hc
        simpa [mapGet, h] using ih hc
  · rw [if_neg hc, mapGet_append, mapGet_of_not_contains m k (by simpa using hc)]
    simp [mapGet]

theorem mapGetD_mapSet {β : Type} (m : List (String × β)) (k : String) (v d : β) :
    mapGetD (mapSet m k v) k d = v := by
  rw [mapGetD, mapGet_mapSet]
  rfl

/-- C8: the formatter `formatSolAmount` implements the graduated-precision policy:
`0 → "0 SOL"`, `< 0.001 → 6` decimals, `< 1 → 3`, `< 1000 → 2`, else `0`,
exhaustively over the non-negative rationals (no additional branch). -/
theorem claim_c8_format_policy (v : ℚ) (hv : 0 ≤ v) :
    (v = 0 → formatSolAmount v = "0 SOL") ∧
    (v ≠ 0 → v < 1 / 1000 → formatSolAmount v = toFixed v 6 ++ " SOL") ∧
    (1 / 1000 ≤ v → v < 1 → formatSolAmount v = toFixed v 3 ++ " SOL") ∧
    (1 ≤ v → v < 1000 → formatSolAmount v = toFixed v 2 ++ " SOL") ∧
    (1000 ≤ v → formatSolAmount v = toFixed v 0 ++ " SOL") := by
  refine ⟨fun h0 => ?_, fun h0 h1 => ?_, fun h1 h2 => ?_, fun h2 h3 => ?_, fun h3 => ?_⟩
  · rw [formatSolAmount, if_pos h0]
  · rw [formatSolAmount, if_neg h0, if_pos h1]
  · rw [formatSolAmount, if_neg (by linarith : ¬ v = 0), if_neg (by linarith : ¬ v < 1 / 1000),
      if_pos h2]
  · rw [formatSolAmount, if_neg (by linarith : ¬ v = 0), if_neg (by linarith : ¬ v < 1 / 1000),
      if_neg (by linarith : ¬ v < 1), if_pos h3]
  · rw [formatSolAmount, if_neg (by linarith : ¬ v = 0), if_neg (by linarith : ¬ v < 1 / 1000),
      if_neg (by linarith : ¬ v < 1), if_neg (by linarith : ¬ v < 1000)]

/-- Witness for C8 at the boundary values 0, 0.0009, 0.5, 500, 5000. -/
theorem claim_c8_format_policy_witness :
    formatSolAmount 0 = "0 SOL" ∧
    formatSolAmount (9 / 10000) = toFixed (9 / 10000) 6 ++ " SOL" ∧
    formatSolAmount (1 / 2) = toFixed (1 / 2) 3 ++ " SOL" ∧
    formatSolAmount 500 = toFixed 500 2 ++ " SOL" ∧
    formatSolAmount 5000 = toFixed 5000 0 ++ " SOL" :=
  ⟨(claim_c8_format_policy 0 le_rfl).1 rfl,
   (claim_c8_format_policy (9 / 10000) (by norm_num)).2.1 (by norm_num) (by norm_num),
   (claim_c8_format_policy (1 / 2) (by norm_num)).2.2.1 (by norm_num) (by norm_num),
   (claim_c8_format_policy 500 (by norm_num)).2.2.2.1 (by norm_num) (by norm_num),
   (claim_c8_format_policy 5000 (by norm_num)).2.2.2.2 (by norm_num)⟩

/-- C9: the converter `getTokenValueInSol` computes `rawAmount / 10^decimals * rate(mint)`
with the rate looked up in `TOKEN_TO_SOL_RATES`; an absent mint yields 0
(rate defaults to 0, no error), and a raw amount of 0 yields 0 for any
decimals. -/
theorem claim_c9_token_value (mint : String) (amt : ℚ) (d : ℕ) :
    getTokenValueInSol mint amt d = amt / 10 ^ d * (TOKEN_TO_SOL_RATES.lookup mint).getD 0 ∧
    (TOKEN_TO_SOL_RATES.lookup mint = none → getTokenValueInSol mint amt d = 0) ∧
    getTokenValueInSol mint 0 d = 0 := by
  refine ⟨rfl, fun h => ?_, ?_⟩
  · rw [getTokenValueInSol]
    simp [h]
  · rw [getTokenValueInSol]
    simp

/-- Witness for C9: an unknown mint converts to 0; a known mint with raw
amount 0 converts to 0. -/
theorem claim_c9_token_value_witness :
    TOKEN_TO_SOL_RATES.lookup "notAMint" = none ∧
    getTokenValueInSol "notAMint" 5 3 = 0 ∧
    getTokenValueInSol "So11111111111111111111111111111111111111112" 0 7 = 0 :=
  ⟨by decide,
   (claim_c9_token_value "notAMint" 5 3).2.1 (by decide),
   (claim_c9_token_value "So11111111111111111111111111111111111111112" 0 7).2.2⟩

/-- C4: the lookup `getCachedAnalysis` never returns an expired entry: if the stored
entry for the address satisfies `now - timestamp > ttl`, the call removes it
and returns absent; if it is present and not expired, the call returns its
stored payload and leaves the store unchanged. -/
theorem claim_c4_get_no_expired (now : ℤ) (address : String) (m : CacheMap)
    (e : CacheEntry) (h : mapGet m (getCacheKey address) = some e) :
    (now - e.timestamp > e.ttl →
      getCachedAnalysis now address m = (none, mapDelete m (getCacheKey address)) ∧
      mapGet (mapDelete m (getCacheKey address)) (getCacheKey address) = none) ∧
    (¬ now - e.timestamp > e.ttl →
      getCachedAnalysis now address m = (some e.data, m)) := by
  constructor
  · intro hexp
    refine ⟨?_, mapGet_mapDelete _ _⟩
    rw [getCachedAnalysis]
    simp only [h, if_pos hexp]
  · intro hexp
    rw [getCachedAnalysis]
    simp only [h, if_neg hexp]

/-- Witness for C4: a concrete expired entry is purged; the same entry at an
earlier clock is served unchanged. -/
theorem claim_c4_get_no_expired_witness :
    (getCachedAnalysis 100 "a" [("analysis:a", (⟨respOf "a", 0, 10⟩ : CacheEntry))] =
      (none, mapDelete [("analysis:a", (⟨respOf "a", 0, 10⟩ : CacheEntry))] (getCacheKey "a")) ∧
     mapGet (mapDelete [("analysis:a", (⟨respOf "a", 0, 10⟩ : CacheEntry))] (getCacheKey "a"))
       (getCacheKey "a") = none) ∧
    getCachedAnalysis 5 "a" [("analysis:a", (⟨respOf "a", 0, 10⟩ : CacheEntry))] =
      (some (respOf "a"), [("analysis:a", (⟨respOf "a", 0, 10⟩ : CacheEntry))]) :=
  ⟨(claim_c4_get_no_expired 100 "a" [("analysis:a", ⟨respOf "a", 0, 10⟩)]
      ⟨respOf "a", 0, 10⟩ (by decide)).1 (by decide),
   (claim_c4_get_no_expired 5 "a" [("analysis:a", ⟨respOf "a", 0, 10⟩)]
      ⟨respOf "a", 0, 10⟩ (by decide)).2 (by decide)⟩

/-- C6: for an invalid address, `analyzeAddress` returns `isValid = false`,
the non-empty error `"Invalid Solana address format"`, and an empty (but
present) `relatedAccounts`, independently of the cache: the cache is
untouched, no fetch happens, and the result is the same for every cache
state and fetch outcome. -/
theorem claim_c6_invalid_address (validAddr : String → Bool)
    (fetch : FetchOutcome) (now : ℤ) (address : String) (cache : CacheMap)
    (h : validAddr address = false) :
    analyzeAddress validAddr fetch now address cache =
      (⟨address, false, [], some "Invalid Solana address format"⟩, cache, false) ∧
    "Invalid Solana address format" ≠ "" := by
  refine ⟨?_, by decide⟩
  rw [analyzeAddress]
  simp [h]

/-- Witness for C6 at a concrete invalid address and non-trivial cache. -/
theorem claim_c6_invalid_address_witness :
    analyzeAddress (fun _ => false) (.failure none) 3 "bad!"
        [("analysis:x", ⟨respOf "x", 0, 10⟩)] =
      (⟨"bad!", false, [], some "Invalid Solana address format"⟩,
       [("analysis:x", ⟨respOf "x", 0, 10⟩)], false) ∧
    "Invalid Solana address format" ≠ "" :=
  claim_c6_invalid_address (fun _ => false) (.failure none) 3 "bad!"
    [("analysis:x", ⟨respOf "x", 0, 10⟩)] rfl

/-- C10: for a valid address on a cache miss whose signature listing is
empty, `analyzeAddress` returns a successful payload with empty
`relatedAccounts` but writes no cache entry (the cache is returned
unchanged), so the same query at any later time performs the fetch again. -/
theorem claim_c10_zero_records_not_cached (validAddr : String → Bool)
    (address : String) (cache : CacheMap) (txs : List (Option ParsedTx))
    (hv : validAddr address = true)
    (hm : mapGet cache (getCacheKey address) = none) :
    ∀ now : ℤ, analyzeAddress validAddr (.success 0 txs) now address cache =
      (⟨address, true, [], none⟩, cache, true) := by
  intro now
  rw [analyzeAddress]
  simp only [hv, Bool.not_true, Bool.false_eq_true, if_false]
  rw [getCachedAnalysis]
  simp only [hm]
  simp

/-- Witness for C10: first and repeated zero-record queries both fetch. -/
theorem claim_c10_zero_records_not_cached_witness :
    analyzeAddress (fun _ => true) (.success 0 []) 0 "addr" [] =
      (⟨"addr", true, [], none⟩, [], true) ∧
    analyzeAddress (fun _ => true) (.success 0 []) 42 "addr" [] =
      (⟨"addr", true, [], none⟩, [], true) :=
  ⟨claim_c10_zero_records_not_cached (fun _ => true) "addr" [] [] rfl rfl 0,
   claim_c10_zero_records_not_cached (fun _ => true) "addr" [] [] rfl rfl 42⟩

/-- C7: when the fetch phase fails as a whole, `analyzeAddress` returns an
error payload with a human-readable message and empty `relatedAccounts`,
and caches that payload under the short error TTL, which is strictly
shorter than the success TTL. -/
theorem claim_c7_error_payload_cached (validAddr : String → Bool)
    (msg : Option String) (now : ℤ) (address : String) (cache : CacheMap)
    (hv : validAddr address = true)
    (hm : mapGet cache (getCacheKey address) = none) :
    analyzeAddress validAddr (.failure msg) now address cache =
      (⟨address, true, [],
        some ("Failed to analyze address: " ++ msg.getD "Unknown error")⟩,
       mapSet cache (getCacheKey address)
         ⟨⟨address, true, [],
           some ("Failed to analyze address: " ++ msg.getD "Unknown error")⟩,
          now, SHORT_CACHE_TTL⟩,
       true) ∧
    ("Failed to analyze address: " ++ msg.getD "Unknown error") ≠ "" ∧
    SHORT_CACHE_TTL < CACHE_TTL := by
  refine ⟨?_, ?_, by decide⟩
  · rw [analyzeAddress]
    simp only [hv, Bool.not_true, Bool.false_eq_true, if_false]
    rw [getCachedAnalysis]
    simp only [hm]
  · intro hcontra
    have hlen := congrArg String.length hcontra
    rw [String.length_append] at hlen
    have h27 : ("Failed to analyze address: ").length = 27 := rfl
    have h0 : ("" : String).length = 0 := rfl
    omega

/-- Witness for C7 at a concrete transport failure. -/
theorem claim_c7_error_payload_cached_witness :
    analyzeAddress (fun _ => true) (.failure (some "boom")) 7 "addr" [] =
      (⟨"addr", true, [], some "Failed to analyze address: boom"⟩,
       mapSet [] (getCacheKey "addr")
         ⟨⟨"addr", true, [], some "Failed to analyze address: boom"⟩,
          7, SHORT_CACHE_TTL⟩,
       true) ∧
    ("Failed to analyze address: " ++ (some "boom").getD "Unknown error") ≠ "" ∧
    SHORT_CACHE_TTL < CACHE_TTL :=
  claim_c7_error_payload_cached (fun _ => true) (some "boom") 7 "addr" [] rfl rfl

/-- Counterexample to C5 as stated: a valid address whose (successful) first
analysis saw zero signatures is not cached, so the immediate second call is
not served from the cache — it performs the fetch again (`true` flag). -/
theorem claim_c5_counterexample :
    (analyzeAddress (fun _ => true) (.success 0 []) 0 "addr" []).1 =
      ⟨"addr", true, [], none⟩ ∧
    (analyzeAddress (fun _ => true) (.success 0 [])
        0 "addr"
        (analyzeAddress (fun _ => true) (.success 0 []) 0 "addr" []).2.1).2.2 =
      true := by
  constructor <;> rfl

/-- C5 (amended): for a valid address on a cache miss whose first call
fetched a non-empty signature listing, a second call within the success TTL
returns the identical payload, served from the cache with no fetch
performed, whatever the provider would have answered. -/
theorem claim_c5_idempotent_within_ttl (validAddr : String → Bool) (n : ℕ)
    (txs : List (Option ParsedTx)) (t1 t2 : ℤ) (address : String)
    (cache : CacheMap)
    (hv : validAddr address = true)
    (hm : mapGet cache (getCacheKey address) = none)
    (hn : n ≠ 0)
    (ht : ¬ t2 - t1 > CACHE_TTL) :
    ∀ fetch2 : FetchOutcome,
      analyzeAddress validAddr fetch2 t2 address
        ((analyzeAddress validAddr (.success n txs) t1 address cache).2.1) =
      ((analyzeAddress validAddr (.success n txs) t1 address cache).1,
       (analyzeAddress validAddr (.success n txs) t1 address cache).2.1,
       false) := by
  intro fetch2
  have h1 : analyzeAddress validAddr (.success n txs) t1 address cache =
      (⟨address, true, buildRelatedAccounts (aggregateAll address txs), none⟩,
       setCachedAnalysis t1 address
         ⟨address, true, buildRelatedAccounts (aggregateAll address txs), none⟩
         cache,
       true) := by
    rw [analyzeAddress]
    simp only [hv, Bool.not_true, Bool.false_eq_true, if_false]
    rw [getCachedAnalysis]
    simp only [hm, if_neg hn]
  rw [h1]
  rw [analyzeAddress]
  simp only [hv, Bool.not_true, Bool.false_eq_true, if_false]
  rw [getCachedAnalysis]
  simp only [setCachedAnalysis]
  rw [mapGet_mapSet]
  simp only [if_neg ht]

/-- Witness for the amended C5 at a concrete one-transaction run. -/
theorem claim_c5_idempotent_within_ttl_witness :
    analyzeAddress (fun _ => true) (.failure none) 100 "addr"
        ((analyzeAddress (fun _ => true) (.success 1 []) 0 "addr" []).2.1) =
      ((analyzeAddress (fun _ => true) (.success 1 []) 0 "addr" []).1,
       (analyzeAddress (fun _ => true) (.success 1 []) 0 "addr" []).2.1,
       false) :=
  claim_c5_idempotent_within_ttl (fun _ => true) 1 [] 0 100 "addr" [] rfl rfl
    (by decide) (by decide) (.failure none)

/-- A record with a single non-excluded participant whose pre- and
post-balances are equal (zero delta). -/
def txZeroDelta : ParsedTx :=
  ⟨some ["B"], some ⟨some [5], some [5], none, none⟩⟩

/-- Counterexample to C2 as stated: for a participant with a zero balance
delta the aggregate is *not* left unchanged — the interaction count is
still incremented (volume stays untouched). -/
theorem claim_c2_counterexample :
    (processTx "A" ⟨[], []⟩ txZeroDelta).interactions = [("B", 1)] ∧
    (processTx "A" ⟨[], []⟩ txZeroDelta).volumes = [] ∧
    (processTx "A" ⟨[], []⟩ txZeroDelta).interactions ≠ [] := by
  refine ⟨rfl, rfl, by decide⟩

/-- C2 (amended): in the native-unit pass, an excluded participant position
leaves the state unchanged; a non-excluded participant always has its
interaction count incremented, while `abs(postBalance - preBalance) / 1e9`
is accumulated into its volume if and only if the delta is non-zero (the
volumes map is untouched on a zero delta). -/
theorem claim_c2_native_pass_counts (address : String) (meta : TxMeta)
    (st : AggState) (k : ℕ) (acct : String) :
    ((acct = address ∨ acct ∈ EXCLUDED_ACCOUNTS) →
      nativeStep address meta st k acct = st) ∧
    (¬ (acct = address ∨ acct ∈ EXCLUDED_ACCOUNTS) →
      ∀ pre post, meta.preBalances = some pre → meta.postBalances = some post →
        k < pre.length → k < post.length →
        mapGetD (nativeStep address meta st k acct).interactions acct 0 =
          mapGetD st.interactions acct 0 + 1 ∧
        (post.getD k 0 - pre.getD k 0 = 0 →
          (nativeStep address meta st k acct).volumes = st.volumes) ∧
        (post.getD k 0 - pre.getD k 0 ≠ 0 →
          mapGetD (nativeStep address meta st k acct).volumes acct 0 =
            mapGetD st.volumes acct 0 +
              ((|post.getD k 0 - pre.getD k 0| : ℤ) : ℚ) / 1000000000)) := by
  constructor
  · intro hexcl
    rw [nativeStep, if_pos hexcl]
  · intro hexcl pre post hpre hpost hk1 hk2
    rw [nativeStep, if_neg hexcl]
    simp only [hpre, hpost, if_pos (And.intro hk1 hk2)]
    refine ⟨?_, fun hz => ?_, fun hnz => ?_⟩
    · by_cases hgt : |post.getD k 0 - pre.getD k 0| > 0 <;>
        simp only [hgt, if_pos, if_neg, if_true, if_false] <;>
        exact mapGetD_mapSet _ _ _ _
    · rw [if_neg (show ¬ |post.getD k 0 - pre.getD k 0| > 0 by rw [hz]; decide)]
    · rw [if_pos (abs_pos.mpr hnz)]
      exact mapGetD_mapSet _ _ _ _

/-- Witness for the amended C2: a participant with delta `7` gets one
interaction and `7e-9` volume; the zero-delta clause at a concrete record. -/
theorem claim_c2_native_pass_counts_witness :
    mapGetD (nativeStep "A" ⟨some [0], some [7], none, none⟩ ⟨[], []⟩ 0
      "B").interactions "B" 0 = mapGetD (⟨[], []⟩ : AggState).interactions "B" 0 + 1 ∧
    mapGetD (nativeStep "A" ⟨some [0], some [7], none, none⟩ ⟨[], []⟩ 0
      "B").volumes "B" 0 = mapGetD (⟨[], []⟩ : AggState).volumes "B" 0 +
        ((|([7] : List ℤ).getD 0 0 - ([0] : List ℤ).getD 0 0| : ℤ) : ℚ) / 1000000000 ∧
    (nativeStep "A" ⟨some [5], some [5], none, none⟩ ⟨[], []⟩ 0 "B").volumes = [] := by
  have h1 := (claim_c2_native_pass_counts "A" ⟨some [0], some [7], none, none⟩
    ⟨[], []⟩ 0 "B").2 (by decide) [0] [7] rfl rfl (by decide) (by decide)
  have h2 := (claim_c2_native_pass_counts "A" ⟨some [5], some [5], none, none⟩
    ⟨[], []⟩ 0 "B").2 (by decide) [5] [5] rfl rfl (by decide) (by decide)
  exact ⟨h1.1, h1.2.2 (by decide), h2.2.1 (by decide)⟩

/-- A list of 26 distinct participant accounts. -/
def keys26 : List String :=
  ["A", "B", "C", "D", "E", "F", "G", "H", "I", "J", "K", "L", "M",
   "N", "O", "P", "Q", "R", "S", "T", "U", "V", "W", "X", "Y", "Z"]

/-- One record in which all 26 participants gain one lamport. -/
def tx26 : ParsedTx :=
  ⟨some keys26, some ⟨some (List.replicate 26 0), some (List.replicate 26 1), none, none⟩⟩

theorem length_buildRelatedAccounts (st : AggState) :
    (buildRelatedAccounts st).length =
      (jsSetUnion (st.interactions.map (fun e => e.1))
        (st.volumes.map (fun e => e.1))).length := by
  rw [buildRelatedAccounts, rankedAccounts]
  simp

theorem rankLe_eq_true_iff (a b : RankedAccount) :
    rankLe a b = true ↔
      (b.volumeValue < a.volumeValue ∨
        (a.volumeValue = b.volumeValue ∧ b.interactions ≤ a.interactions)) := by
  rw [rankLe]
  by_cases h : a.volumeValue = b.volumeValue
  · simp [h, lt_irrefl]
  · simp only [if_pos (by exact h : a.volumeValue ≠ b.volumeValue),
      decide_eq_true_eq]
    constructor
    · intro hle
      exact Or.inl (lt_of_le_of_ne hle (fun e => h e.symm))
    · rintro (hlt | ⟨heq, _⟩)
      · exact le_of_lt hlt
      · exact absurd heq h

theorem rankLe_total (a b : RankedAccount) : rankLe a b || rankLe b a := by
  rcases lt_trichotomy a.volumeValue b.volumeValue with h | h | h
  · have : rankLe b a = true := (rankLe_eq_true_iff b a).mpr (Or.inl h)
    simp [this]
  · rcases Nat.le_total b.interactions a.interactions with hi | hi
    · have : rankLe a b = true := (rankLe_eq_true_iff a b).mpr (Or.inr ⟨h, hi⟩)
      simp [this]
    · have : rankLe b a = true := (rankLe_eq_true_iff b a).mpr (Or.inr ⟨h.symm, hi⟩)
      simp [this]
  · have : rankLe a b = true := (rankLe_eq_true_iff a b).mpr (Or.inl h)
    simp [this]

theorem rankLe_trans (a b c : RankedAccount) (h1 : rankLe a b) (h2 : rankLe b c) :
    rankLe a c := by
  rw [rankLe_eq_true_iff] at h1 h2 ⊢
  rcases h1 with h1 | ⟨h1e, h1i⟩ <;> rcases h2 with h2 | ⟨h2e, h2i⟩
  · exact Or.inl (h2.trans h1)
  · exact Or.inl (h2e ▸ h1)
  · exact Or.inl (h1e ▸ h2)
  · exact Or.inr ⟨h1e.trans h2e, h2i.trans h1i⟩

set_option maxRecDepth 100000 in
/-- Counterexample to C3 as stated: the cache variant never truncates — a
single record with 26 distinct counterparties yields 26 related accounts,
more than the claimed bound of 25. -/
theorem claim_c3_counterexample :
    ¬ (buildRelatedAccounts (aggregateAll "q" [some tx26])).length ≤ 25 := by
  rw [length_buildRelatedAccounts]
  decide

/-- C3 (amended): the `relatedAccounts` list is the ranked list — sorted by
strictly descending volume, with descending interaction count as the
tie-break — stripped to `{address, totalSolVolume}`, with *no* truncation:
every aggregated counterparty is returned. -/
theorem claim_c3_ranking (st : AggState) :
    (rankedAccounts st).Pairwise (fun a b =>
      b.volumeValue < a.volumeValue ∨
        (a.volumeValue = b.volumeValue ∧ b.interactions ≤ a.interactions)) ∧
    buildRelatedAccounts st =
      (rankedAccounts st).map
        (fun r => ⟨r.address, formatSolAmount r.volumeValue⟩) := by
  refine ⟨?_, rfl⟩
  rw [rankedAccounts]
  exact (List.sorted_mergeSort (fun a b c => rankLe_trans a b c) rankLe_total _).imp
    (fun h => (rankLe_eq_true_iff _ _).mp h)

theorem addrOf_length (i : ℕ) : (addrOf i).length = i := by
  simp [addrOf, String.length]

theorem cacheKey_addrOf_inj {i j : ℕ}
    (h : getCacheKey (addrOf i) = getCacheKey (addrOf j)) : i = j := by
  have hl := congrArg String.length h
  rw [getCacheKey, getCacheKey, String.length_append, String.length_append,
    addrOf_length, addrOf_length] at hl
  omega

theorem contains_map_entryOf (L : List ℕ) (m : ℕ) (h : m ∉ L) :
    mapContains (L.map entryOf) (getCacheKey (addrOf m)) = false := by
  induction L with
  | nil => rfl
  | cons a t ih =>
    simp only [List.map_cons, mapContains, Bool.or_eq_false_iff]
    refine ⟨?_, ih (fun hm => h (List.mem_cons_of_mem a hm))⟩
    simp only [decide_eq_false_iff_not]
    intro he
    exact h (by simp [cacheKey_addrOf_inj he])

theorem mem_window {n i : ℕ}
    (h : i ∈ List.range' (n - (MAX_CACHE_SIZE + 1)) (min n (MAX_CACHE_SIZE + 1))) :
    n - (MAX_CACHE_SIZE + 1) ≤ i ∧ i < n := by
  rw [List.mem_range'] at h
  obtain ⟨j, hj, rfl⟩ := h
  simp only [MAX_CACHE_SIZE] at hj ⊢
  omega

theorem expectedCache_no_expiry (n : ℕ) :
    (expectedCache n).filter
      (fun e => !(decide ((n : ℤ) - e.2.timestamp > e.2.ttl))) = expectedCache n := by
  apply List.filter_eq_self.mpr
  intro e he
  rw [expectedCache] at he
  obtain ⟨i, hi, rfl⟩ := List.mem_map.mp he
  have hw := mem_window hi
  simp only [entryOf, Bool.not_eq_eq_eq_not, Bool.not_true, decide_eq_false_iff_not,
    not_lt, CACHE_TTL]
  have h1 : n ≤ i + (MAX_CACHE_SIZE + 1) := by omega
  simp only [MAX_CACHE_SIZE] at h1
  push_cast
  omega

theorem expectedCache_sorted (n : ℕ) :
    List.Pairwise (fun a b : String × CacheEntry =>
      decide (a.2.timestamp ≤ b.2.timestamp) = true) (expectedCache n) := by
  rw [expectedCache, List.pairwise_map]
  apply List.Pairwise.imp ?_ (List.pairwise_lt_range' _ _)
  intro a b hab
  simp only [entryOf, decide_eq_true_eq]
  exact_mod_cast Nat.le_of_lt hab

theorem putSeq_eq (n : ℕ) : putSeq n = expectedCache n := by
  induction n with
  | zero => rfl
  | succ n ih =>
    rw [putSeq, ih, setCachedAnalysis, cleanupCache]
    simp only [expectedCache_no_expiry]
    have hlen : (expectedCache n).length = min n (MAX_CACHE_SIZE + 1) := by
      rw [expectedCache, List.length_map, List.length_range']
    by_cases hn : n ≤ 1000
    · -- under capacity: no eviction, plain append
      rw [if_neg (by simp only [hlen, MAX_CACHE_SIZE]; omega)]
      rw [mapSet, if_neg (by
        rw [expectedCache]
        rw [contains_map_entryOf _ n (fun hmem => absurd (mem_window hmem).2 (lt_irrefl n))]
        simp)]
      rw [expectedCache, expectedCache]
      simp only [MAX_CACHE_SIZE]
      rw [show n - (1000 + 1) = 0 by omega, show n + 1 - (1000 + 1) = 0 by omega,
        show min n (1000 + 1) = n by omega, show min (n + 1) (1000 + 1) = n + 1 by omega]
      rw [List.range'_concat, List.map_append]
      simp [entryOf]
    · -- at capacity 1001: evict the single oldest entry, then append
      have hn' : 1001 ≤ n := by omega
      have hmin : min n (MAX_CACHE_SIZE + 1) = 1001 := by
        simp only [MAX_CACHE_SIZE]; omega
      rw [if_pos (by simp only [hlen, hmin, MAX_CACHE_SIZE]; omega)]
      rw [List.mergeSort_of_sorted (expectedCache_sorted n)]
      have hdec : expectedCache n =
          entryOf (n - 1001) :: (List.range' (n - 1000) 1000).map entryOf := by
        rw [expectedCache, hmin]
        rw [show (1001 : ℕ) = 1000 + 1 from rfl, List.range'_succ, List.map_cons]
        simp only [MAX_CACHE_SIZE]
        rw [show n - (1000 + 1) + 1 = n - 1000 by omega]
      rw [hlen, hmin]
      rw [show (1001 : ℕ) - MAX_CACHE_SIZE = 1 by simp [MAX_CACHE_SIZE]]
      rw [hdec]
      rw [show (entryOf (n - 1001) :: (List.range' (n - 1000) 1000).map entryOf).take 1 =
        [entryOf (n - 1001)] from rfl]
      rw [List.filter_cons]
      rw [show ((([entryOf (n - 1001)].any
          (fun r => r.1 == (entryOf (n - 1001)).1))).not = false) from by simp]
      rw [if_neg Bool.false_ne_true]
      have hfilter2 : ((List.range' (n - 1000) 1000).map entryOf).filter
          (fun e => !([entryOf (n - 1001)].any (fun r => r.1 == e.1))) =
          (List.range' (n - 1000) 1000).map entryOf := by
        apply List.filter_eq_self.mpr
        intro e he
        obtain ⟨i, hi, rfl⟩ := List.mem_map.mp he
        rw [List.mem_range'] at hi
        obtain ⟨j, hj, rfl⟩ := hi
        have hne : ¬ (entryOf (n - 1001)).1 = (entryOf (n - 1000 + j)).1 := by
          intro he2
          have := cacheKey_addrOf_inj he2
          omega
        simp [hne]
      rw [hfilter2]
      have hcont : mapContains ((List.range' (n - 1000) 1000).map entryOf)
          (getCacheKey (addrOf n)) = false := by
        apply contains_map_entryOf
        intro hmem
        rw [List.mem_range'] at hmem
        obtain ⟨j, hj, hje⟩ := hmem
        omega
      rw [mapSet, if_neg (by simp [hcont])]
      have hrhs : expectedCache (n + 1) =
          (List.range' (n - 1000) 1000).map entryOf ++ [entryOf n] := by
        rw [expectedCache]
        simp only [MAX_CACHE_SIZE]
        rw [show n + 1 - (1000 + 1) = n - 1000 by omega,
          show min (n + 1) (1000 + 1) = 1000 + 1 by omega]
        rw [List.range'_concat, List.map_append]
        rw [show n - 1000 + 1 * 1000 = n by omega]
        rfl
      rw [hrhs]
      rfl

/-- Counterexample to C1 as stated: after `MAX_CACHE_SIZE + 1` distinct
non-expired insertions, `MAX_CACHE_SIZE + 1` entries are present — not
exactly `MAX_CACHE_SIZE` — because `cleanupCache` only evicts when the
store is strictly above capacity and runs before the insertion. -/
theorem claim_c1_counterexample :
    (putSeq (MAX_CACHE_SIZE + 1)).length = MAX_CACHE_SIZE + 1 ∧
    (putSeq (MAX_CACHE_SIZE + 1)).length ≠ MAX_CACHE_SIZE := by
  have h : (putSeq (MAX_CACHE_SIZE + 1)).length = MAX_CACHE_SIZE + 1 := by
    rw [putSeq_eq, expectedCache, List.length_map, List.length_range']
    simp [MAX_CACHE_SIZE]
  refine ⟨h, ?_⟩
  rw [h]
  simp [MAX_CACHE_SIZE]

/-- C1 (amended): after inserting `MAX_CACHE_SIZE + k` (`k ≥ 1`) distinct
non-expired entries via `setCachedAnalysis`, exactly `MAX_CACHE_SIZE + 1`
entries are present, and the store is precisely the `MAX_CACHE_SIZE + 1`
most-recently-inserted entries in insertion order (`expectedCache`):
the cleanup pass removes expired entries but evicts oldest-by-`createdAt`
entries only when the store is strictly above capacity, stopping at exactly
capacity, before the new entry is inserted. -/
theorem claim_c1_eviction_bound (k : ℕ) (hk : 1 ≤ k) :
    putSeq (MAX_CACHE_SIZE + k) = expectedCache (MAX_CACHE_SIZE + k) ∧
    (putSeq (MAX_CACHE_SIZE + k)).length = MAX_CACHE_SIZE + 1 := by
  refine ⟨putSeq_eq _, ?_⟩
  rw [putSeq_eq, expectedCache, List.length_map, List.length_range']
  simp only [MAX_CACHE_SIZE]
  omega

/-- Witness for the amended C1 at `k = 1`. -/
theorem claim_c1_eviction_bound_witness :
    1 ≤ 1 ∧
    (putSeq (MAX_CACHE_SIZE + 1) = expectedCache (MAX_CACHE_SIZE + 1) ∧
     (putSeq (MAX_CACHE_SIZE + 1)).length = MAX_CACHE_SIZE + 1) :=
  ⟨le_refl 1, claim_c1_eviction_bound 1 (le_refl 1)⟩

end SolanaBubbles
